import Mathlib

/-!
Shallow embedding of the `valutatrade_hub.parser_service` rate-ingestion
subsystem (api_clients.py, storage.py, updater.py, usecases.py, plus the
currency registry of core/currencies.py that the use cases consult).

Modelling conventions:
* Python dicts become ordered association lists `List (String × _)`;
  `d[k] = v` is `setKey` (overwrite in place or append), `d1.update(d2)` is
  `dictUpdate`, `d.get(k)` is `List.lookup`.
* ISO-8601 UTC timestamp strings are abstracted to integer epoch seconds
  (`Timestamp := Int`); JSON `null` is `none`.  `datetime.utcnow()` becomes
  an explicit `now` parameter.
* Python floats become `Rat`; file contents are the in-memory structures
  (the JSON round trip through `_atomic_write`/`json.load` is the identity
  on the modelled fields).
* Exceptions become `Except`; a function that catches every exception and
  returns a value is total.
-/

/-- Python `str.upper()` on the ASCII code strings used by this service. -/
def pyUpper (s : String) : String := ⟨s.data.map Char.toUpper⟩

/-- Python `str.lower()` on ASCII strings. -/
def pyLower (s : String) : String := ⟨s.data.map Char.toLower⟩

/-- Python `str.strip()`: drop leading and trailing whitespace. -/
def pyStrip (s : String) : String :=
  ⟨((s.data.dropWhile Char.isWhitespace).reverse.dropWhile Char.isWhitespace).reverse⟩

/-- Python `str.capitalize()` (`source_name.capitalize()`, updater.py 83/111):
first character upper-cased, the rest lower-cased. -/
def pyCapitalize (s : String) : String :=
  match s.data with
  | [] => ""
  | c :: cs => ⟨c.toUpper :: cs.map Char.toLower⟩

/-- Helper for `splitUnderscore`: accumulates the current chunk reversed. -/
def splitUnderscoreAux : List Char → List Char → List String
  | [], acc => [⟨acc.reverse⟩]
  | c :: cs, acc =>
    if c = '_' then ⟨acc.reverse⟩ :: splitUnderscoreAux cs []
    else splitUnderscoreAux cs (c :: acc)

/-- Python `s.split("_")` (storage.py 112, usecases.py 90). -/
def splitUnderscore (s : String) : List String := splitUnderscoreAux s.data []

/-- Python dict assignment `d[k] = v`: overwrite in place when the key is
present (keeping its insertion position), otherwise append at the end. -/
def setKey (d : List (String × α)) (k : String) (v : α) : List (String × α) :=
  if d.any (fun p => p.1 == k) then d.map (fun p => if p.1 == k then (k, v) else p)
  else d ++ [(k, v)]

/-- Python `d1.update(d2)` (updater.py 80). -/
def dictUpdate (d₁ d₂ : List (String × α)) : List (String × α) :=
  d₂.foldl (fun d p => setKey d p.1 p.2) d₁

/-- ISO-8601 UTC timestamps abstracted to integer epoch seconds. -/
abbrev Timestamp := Int

/-- One snapshot entry: the value stored under `pairs[pair]` in `rates.json`
(built by `StorageManager.save_rates`, storage.py 82-88). -/
structure PairData where
  rate : Rat
  updated_at : Option Timestamp
  source : String
deriving DecidableEq, Repr

/-- Contents of `rates.json` (storage.py 56-97).  A missing or corrupt file
reads as the empty default `{"pairs": {}, "last_refresh": None}`. -/
structure RatesFile where
  pairs : List (String × PairData)
  last_refresh : Option Timestamp
deriving DecidableEq, Repr

/-- One record of the history file `exchange_rates.json`
(`StorageManager.save_to_history`, storage.py 121-132).  The synthetic id
`f"{pair}_{timestamp with ':' and '.' replaced}"` is abstracted to
`pair ++ "_" ++ toString now`; the nested `meta` dict is flattened into its
two fields. -/
structure HistoryEntry where
  id : String
  from_currency : String
  to_currency : String
  rate : Rat
  timestamp : Timestamp
  source : String
  meta_request_timestamp : Timestamp
  meta_source_api : String
deriving DecidableEq, Repr

/-- The two JSON files managed by a `StorageManager`. -/
structure Storage where
  rates : RatesFile
  history : List HistoryEntry
deriving DecidableEq, Repr

/-- `StorageManager.load_rates` (storage.py 56-70). -/
def load_rates (st : Storage) : RatesFile := st.rates

/-- The empty default structure returned for a missing/corrupt rates file. -/
def emptyRatesFile : RatesFile := { pairs := [], last_refresh := none }

/-- `StorageManager.save_rates` (storage.py 72-97): stamps every pair with
the single timestamp `now`, which is also the new `last_refresh`, and
atomically replaces the whole file. -/
def save_rates (st : Storage) (rates : List (String × Rat)) (source : String)
    (now : Timestamp) : Storage :=
  { st with
    rates :=
      { pairs := rates.map (fun p =>
          (p.1, { rate := p.2, updated_at := some now, source := source }))
        last_refresh := some now } }

/-- The history entries built by the loop of `StorageManager.save_to_history`
(storage.py 110-133); keys that do not split into exactly two `_`-separated
parts are skipped (`continue`). -/
def historyEntries (rates : List (String × Rat)) (source : String)
    (now : Timestamp) : List HistoryEntry :=
  rates.filterMap (fun p =>
    match splitUnderscore p.1 with
    | [f, t] =>
        some { id := p.1 ++ "_" ++ toString now
               from_currency := f
               to_currency := t
               rate := p.2
               timestamp := now
               source := source
               meta_request_timestamp := now
               meta_source_api := source }
    | _ => none)

/-- `StorageManager.save_to_history` (storage.py 99-149): appends the new
entries and keeps only the last 1000 (`existing_history[-1000:]`); with no
new entries it returns without touching the file. -/
def save_to_history (st : Storage) (rates : List (String × Rat)) (source : String)
    (now : Timestamp) : Storage :=
  let entries := historyEntries rates source now
  if entries = [] then st
  else
    let h := st.history ++ entries
    { st with history := if h.length > 1000 then h.drop (h.length - 1000) else h }

/-- `StorageManager.load_history` (storage.py 151-164). -/
def load_history (st : Storage) : List HistoryEntry := st.history

/-- `StorageManager.get_latest_rates` (storage.py 166-173). -/
def get_latest_rates (st : Storage) : List (String × PairData) :=
  (load_rates st).pairs

/-- `StorageManager.get_rate` (storage.py 175-185), i.e. `rates.get(pair)`. -/
def storage_get_rate (st : Storage) (pair : String) : Option PairData :=
  (get_latest_rates st).lookup pair

/-- The `ApiRequestError` kinds raised by `BaseApiClient._make_request`
(api_clients.py 49-61); the Russian reason strings are abstracted to
constructors. -/
inductive ApiError where
  | timeout
  | connectionError
  | rateLimited
  | unauthorized
  | httpError (status : Nat)
  | unknownError
deriving DecidableEq, Repr

/-- Outcome of the raw `requests.get` call as seen by `_make_request`. -/
inductive HttpFailure where
  | timeout
  | connectionError
  | httpStatus (status : Nat)
  | otherExn
deriving DecidableEq, Repr

/-- A parsed JSON response of ExchangeRate-API as read by
`ExchangeRateApiClient.fetch_rates`: `data.get("result")` (a missing key is
modelled as `""`, which is `!= "success"` either way), `data.get("base_code",
...)` and `data.get("rates", {})`. -/
structure ApiResponse where
  result : String
  base_code : Option String
  rates : List (String × Rat)
deriving DecidableEq, Repr

/-- `BaseApiClient._make_request` (api_clients.py 28-61): every transport
failure is re-raised as one `ApiRequestError`; status 429 maps to the
rate-limit error and 401 to the bad-key error. -/
def make_request (outcome : Except HttpFailure ApiResponse) :
    Except ApiError ApiResponse :=
  match outcome with
  | .ok r => .ok r
  | .error .timeout => .error .timeout
  | .error .connectionError => .error .connectionError
  | .error (.httpStatus s) =>
      if s = 429 then .error .rateLimited
      else if s = 401 then .error .unauthorized
      else .error (.httpError s)
  | .error .otherExn => .error .unknownError

/-- `ExchangeRateApiClient.MOCK_FIAT_RATES` (api_clients.py 109-118). -/
def MOCK_FIAT_RATES : List (String × Rat) :=
  [("EUR_USD", 1.0821), ("GBP_USD", 1.2628), ("JPY_USD", 0.0067),
   ("CAD_USD", 0.7412), ("AUD_USD", 0.6589), ("CHF_USD", 1.1284),
   ("CNY_USD", 0.1389), ("RUB_USD", 0.0108)]

/-- Default tracked fiat currencies (config.py 28). -/
def FIAT_CURRENCIES : List String := ["EUR", "GBP", "RUB", "JPY", "CNY"]

/-- Base currency (config.py 22). -/
def BASE_CURRENCY : String := "USD"

/-- The pair-building loop of `ExchangeRateApiClient.fetch_rates`
(api_clients.py 138-144): keeps tracked fiat codes other than the base and
builds `f"{currency}_{base_currency}"` keys. -/
def exchangeRateParsed (data : ApiResponse) : List (String × Rat) :=
  let base := data.base_code.getD BASE_CURRENCY
  data.rates.foldl
    (fun acc p =>
      if p.1 ∈ FIAT_CURRENCIES ∧ p.1 ≠ base then setKey acc (p.1 ++ "_" ++ base) p.2
      else acc)
    []

/-- `ExchangeRateApiClient.fetch_rates` (api_clients.py 124-156).  The outer
`try/except Exception` turns every `_make_request` failure into the mock
table, a non-"success" result or an empty parsed set also yields the mock
table, and only a non-empty parsed set is returned as fetched. -/
def exchangerate_fetch_rates (outcome : Except HttpFailure ApiResponse) :
    List (String × Rat) :=
  match make_request outcome with
  | .error _ => MOCK_FIAT_RATES
  | .ok data =>
      if data.result ≠ "success" then MOCK_FIAT_RATES
      else
        let rates := exchangeRateParsed data
        if rates ≠ [] then rates else MOCK_FIAT_RATES

/-- What a client's `fetch_rates()` call can do in one cycle, as observed by
`RatesUpdater.run_update`: return a dict, raise `ApiRequestError`, or raise
any other exception (the two `except` arms, updater.py 91-104). -/
inductive FetchFailure where
  | api (e : ApiError)
  | unexpected
deriving DecidableEq, Repr

/-- The registered client names (updater.py 36-39). -/
def defaultClients : List String := ["coingecko", "exchangerate"]

/-- One iteration of the source loop of `RatesUpdater.run_update`
(updater.py 65-104).  The loop state is `(results, all_rates, storage)`;
unknown sources are skipped, a successful fetch records the rate count,
merges into `all_rates` and appends to history, and both failure arms
record a zero count and leave everything else unchanged. -/
def runUpdateStep (clients : List String)
    (fetch : String → Except FetchFailure (List (String × Rat)))
    (now : Timestamp)
    (acc : List (String × Nat) × List (String × Rat) × Storage)
    (source_name : String) :
    List (String × Nat) × List (String × Rat) × Storage :=
  let (results, all_rates, st) := acc
  if source_name ∉ clients then acc
  else
    match fetch source_name with
    | .ok rates =>
        (setKey results source_name rates.length,
         dictUpdate all_rates rates,
         save_to_history st rates (pyCapitalize source_name) now)
    | .error _ => (setKey results source_name 0, all_rates, st)

/-- `RatesUpdater.run_update` (updater.py 44-123).  `sources = None` defaults
to all registered clients; after the loop the accumulator is persisted only
when non-empty, labelled with the capitalized single source name when exactly
one source was requested and `"Multiple Sources"` otherwise.  Both `except`
arms absorb per-source fetch failures, so the function is total: no
exception escapes `run_update`. -/
def run_update (clients : List String)
    (fetch : String → Except FetchFailure (List (String × Rat)))
    (sourcesOpt : Option (List String)) (now : Timestamp) (st : Storage) :
    List (String × Nat) × Storage :=
  let sources := sourcesOpt.getD clients
  let res := sources.foldl (runUpdateStep clients fetch now) ([], [], st)
  let results := res.1
  let all_rates := res.2.1
  let st' := res.2.2
  if all_rates = [] then (results, st')
  else
    let main_source :=
      match sources with
      | [s] => pyCapitalize s
      | _ => "Multiple Sources"
    (results, save_rates st' all_rates main_source now)

/-- `RatesUpdater.get_update_summary` (updater.py 125-140).  The
`sources_used` field is built from a Python `set` with unspecified order and
is not modelled; no claim mentions it. -/
structure UpdateSummary where
  last_refresh : Option Timestamp
  total_pairs : Nat
deriving DecidableEq, Repr

/-- `RatesUpdater.get_update_summary` without `sources_used`. -/
def get_update_summary (st : Storage) : UpdateSummary :=
  { last_refresh := (load_rates st).last_refresh
    total_pairs := (load_rates st).pairs.length }

/-- The message of `RatesUpdater.check_freshness`, with the Russian f-strings
abstracted to constructors carrying the interpolated numbers.
`int(delta_seconds/60)` truncates toward zero, hence `Int.tdiv`. -/
inductive FreshnessMsg where
  | noData
  | staleMsg (minutesAgo : Int) (ttl : Int)
  | freshMsg (secondsAgo : Int) (ttl : Int)
deriving DecidableEq, Repr

/-- `RatesUpdater.check_freshness` (updater.py 142-181).  In the integer
timestamp abstraction every stored timestamp parses, so the `except` branch
for malformed strings is unreachable; `ttl` is
`self.config.rates_ttl_seconds`. -/
def check_freshness (st : Storage) (ttl : Int) (now : Timestamp) :
    Bool × FreshnessMsg :=
  match (load_rates st).last_refresh with
  | none => (false, .noData)
  | some t =>
      let delta := now - t
      if delta > ttl then (false, .staleMsg (Int.tdiv delta 60) ttl)
      else (true, .freshMsg delta ttl)

/-- The errors raised by the `ParserUseCases` read paths:
`CurrencyNotFoundError` (carrying the offending code), the `ApiRequestError`
raised by `get_rate` for a pair absent in both directions, Python's
`ZeroDivisionError` from `1 / reverse_data["rate"]`, and the `ValueError`
from unpacking `pair.split("_")` into two names. -/
inductive UseCaseError where
  | currencyNotFound (code : String)
  | rateNotFound (pair : String)
  | zeroDivisionError
  | valueError
deriving DecidableEq, Repr

/-- Key set of `_CURRENCY_REGISTRY` (core/currencies.py 152-162); only
membership matters to the parser-service use cases. -/
def registryCodes : List String := ["USD", "EUR", "RUB", "BTC", "ETH", "LTC"]

/-- `get_currency` (core/currencies.py 165-183): normalizes with
`code.strip().upper()` and raises `CurrencyNotFoundError` on unknown codes. -/
def get_currency (code : String) : Except UseCaseError Unit :=
  let c := pyUpper (pyStrip code)
  if c ∈ registryCodes then .ok () else .error (.currencyNotFound c)

/-- The heterogeneous values appearing in the dict returned by
`ParserUseCases.get_rate`. -/
inductive PyVal where
  | str (s : String)
  | num (q : Rat)
  | bool (b : Bool)
  | time (t : Option Timestamp)
deriving DecidableEq, Repr

/-- The intermediate `rate_data` dict in `ParserUseCases.get_rate`
(usecases.py 142-156).  In the source the `"is_inverse"` key exists only in
the inverse branch; here it is a field that is `false` when the key is
absent. -/
structure RateData where
  rate : Rat
  updated_at : Option Timestamp
  source : String
  is_inverse : Bool
deriving DecidableEq, Repr

/-- The dict literal returned by `ParserUseCases.get_rate` (usecases.py
183-190), as an ordered key/value list.  Note that no `"is_inverse"` key is
among the returned keys: the marking on the intermediate `rate_data` is
dropped.  The `"source"` default `"Unknown"` of `rate_data.get` is
unreachable because both branches set a source.

`is_fresh` is always `true`: the staleness check (usecases.py 164-181)
raises `AttributeError` at `datetime.now(datetime.timezone.utc)` — the name
`datetime` is the class imported on line 4, which has no `timezone`
attribute — and `except Exception: pass` swallows it, leaving the initial
`is_fresh = True` from line 165 untouched on every call. -/
def getRateReturn (pair : String) (rd : RateData) : List (String × PyVal) :=
  [("pair", .str pair),
   ("rate", .num rd.rate),
   ("updated_at", .time rd.updated_at),
   ("source", .str rd.source),
   ("inverse_rate", .num (if rd.rate ≠ 0 then 1 / rd.rate else 0)),
   ("is_fresh", .bool true)]

/-- `ParserUseCases.get_rate` (usecases.py 124-190): checks both currency
codes against the registry, looks up the direct pair, falls back to the
reverse pair synthesizing `1 / reverse_rate` (a reverse rate of exactly 0
raises `ZeroDivisionError` there), and raises `ApiRequestError` when neither
is cached. -/
def get_rate (st : Storage) (from_currency to_currency : String) :
    Except UseCaseError (List (String × PyVal)) :=
  match get_currency (pyUpper from_currency) with
  | .error e => .error e
  | .ok _ =>
    match get_currency (pyUpper to_currency) with
    | .error e => .error e
    | .ok _ =>
      let pair := pyUpper from_currency ++ "_" ++ pyUpper to_currency
      match storage_get_rate st pair with
      | some d => .ok (getRateReturn pair ⟨d.rate, d.updated_at, d.source, false⟩)
      | none =>
          let reverse_pair := pyUpper to_currency ++ "_" ++ pyUpper from_currency
          match storage_get_rate st reverse_pair with
          | some rd =>
              if rd.rate = 0 then .error .zeroDivisionError
              else .ok (getRateReturn pair ⟨1 / rd.rate, rd.updated_at, rd.source, true⟩)
          | none => .error (.rateNotFound pair)

/-- The currency-filter loop of `ParserUseCases.show_rates` (usecases.py
88-92), in iteration order: `from_curr, to_curr = pair.split("_")` raises
`ValueError` when a key does not split into exactly two parts, otherwise a
pair is kept when either side equals the (upper-cased) filter currency. -/
def filterByCurrency (cur : String) :
    List (String × PairData) → Except UseCaseError (List (String × PairData))
  | [] => .ok []
  | (k, d) :: rest =>
      match splitUnderscore k with
      | [f, t] =>
          (filterByCurrency cur rest).map
            (fun fr => if f = cur ∨ t = cur then (k, d) :: fr else fr)
      | _ => .error .valueError

/-- The sort order of `show_rates` (usecases.py 97-101): Python
`sorted(..., key=lambda x: x[1]["rate"], reverse=True)` — descending by rate.
CPython's sort is stable also with `reverse=True`; a stable sort with respect
to a total preorder is unique, so the stable `List.insertionSort` below
computes exactly the same list. -/
def rateDesc (x y : String × PairData) : Prop := y.2.rate ≤ x.2.rate

instance : DecidableRel rateDesc :=
  fun x y => inferInstanceAs (Decidable (y.2.rate ≤ x.2.rate))

instance : IsTotal (String × PairData) rateDesc :=
  ⟨fun x y => le_total y.2.rate x.2.rate⟩

instance : IsTrans (String × PairData) rateDesc :=
  ⟨fun _ _ _ h h' => le_trans h' h⟩

/-- Four decimal digits of `n % 10000`, zero-padded to width 4 (the
fractional part of `f"...:,.4f"`). -/
def pad4 (n : Nat) : String :=
  ⟨[Nat.digitChar (n / 1000 % 10), Nat.digitChar (n / 100 % 10),
    Nat.digitChar (n / 10 % 10), Nat.digitChar (n % 10)]⟩

/-- Thousands grouping of Python's `,` format option, on a digit list given
least-significant first: a `,` after every three digits. -/
def group3 : List Char → List Char
  | [] => []
  | [a] => [a]
  | [a, b] => [a, b]
  | [a, b, c] => [a, b, c]
  | a :: b :: c :: d :: rest => a :: b :: c :: ',' :: group3 (d :: rest)

/-- Round to the nearest integer, ties to the even integer (the rounding
CPython's float formatting applies to the decimal expansion). -/
def roundHalfEven (q : Rat) : Int :=
  let f := ⌊q⌋
  let r := q - f
  if r < 1 / 2 then f
  else if r > 1 / 2 then f + 1
  else if f % 2 = 0 then f else f + 1

/-- `f"{value:,.4f}"` (usecases.py 114) on the `Rat` abstraction of the
stored float: round half-to-even at four decimals, group the integer part in
threes with commas, always print exactly four fractional digits.  (All rates
handled by the service are positive; for negative values the sign handling
below abstracts from CPython's signed-zero edge case.) -/
def format4 (q : Rat) : String :=
  let n := roundHalfEven (q * 10000)
  let sign := if q < 0 then "-" else ""
  let grouped : String := ⟨(group3 (Nat.repr (n.natAbs / 10000)).data.reverse).reverse⟩
  sign ++ grouped ++ "." ++ pad4 (n.natAbs % 10000)

/-- One formatted entry of the `rates` mapping returned by `show_rates`
(usecases.py 108-115). -/
structure FormattedPair where
  rate : Rat
  updated_at : Option Timestamp
  source : String
  formatted_rate : String
deriving DecidableEq, Repr

/-- One pass of the formatting loop of `show_rates` (usecases.py 108-115). -/
def fmtEntry (p : String × PairData) : String × FormattedPair :=
  (p.1, { rate := p.2.rate
          updated_at := p.2.updated_at
          source := p.2.source
          formatted_rate := format4 p.2.rate })

/-- The dict returned by `ParserUseCases.show_rates`; `message` is `none`
when the key is absent (the non-empty-cache return, usecases.py 117-122). -/
structure ShowRatesResult where
  rates : List (String × FormattedPair)
  total : Nat
  last_refresh : Option Timestamp
  base_currency : String
  message : Option String
deriving DecidableEq, Repr

/-- The empty-cache message (usecases.py 74; the quotes around update-rates
in the source string are dropped here). -/
def emptyCacheMsg : String :=
  "Кэш курсов пуст. Выполните update-rates для загрузки данных."

/-- The filter stage of `ParserUseCases.show_rates` (usecases.py 79-94): a
given, non-empty filter currency is validated against the registry
(re-raising `CurrencyNotFoundError` with the upper-cased input) and matching
pairs are kept; `if currency:` means the empty string behaves like no
filter. -/
def showRatesFiltered (currency : Option String)
    (rates : List (String × PairData)) :
    Except UseCaseError (List (String × PairData)) :=
  match currency with
  | some c =>
      if c ≠ "" then
        match get_currency (pyUpper c) with
        | .error _ => .error (.currencyNotFound (pyUpper c))
        | .ok _ => filterByCurrency (pyUpper c) rates
      else .ok rates
  | none => .ok rates

/-- `ParserUseCases.show_rates` (usecases.py 52-122).  With an empty cache it
returns the `message` dict at once — before any currency validation.
Otherwise the filter stage runs, the remaining pairs are sorted descending by
rate, truncated only when `top` is given and `top > 0`
(`if top and top > 0:`), and formatted. -/
def show_rates (st : Storage) (currency : Option String) (top : Option Int)
    (base : String) : Except UseCaseError ShowRatesResult :=
  let rates := get_latest_rates st
  if rates = [] then
    .ok { rates := []
          total := 0
          last_refresh := none
          base_currency := pyUpper base
          message := some emptyCacheMsg }
  else
    match showRatesFiltered currency rates with
    | .error e => .error e
    | .ok filtered =>
        let sorted_items := List.insertionSort rateDesc filtered
        let sorted_items :=
          match top with
          | some n => if 0 < n then sorted_items.take n.toNat else sorted_items
          | none => sorted_items
        let formatted := sorted_items.map fmtEntry
        .ok { rates := formatted
              total := formatted.length
              last_refresh := (load_rates st).last_refresh
              base_currency := pyUpper base
              message := none }

/-- The dict returned by `ParserUseCases.update_rates` (usecases.py 45-50);
the `timestamp` field is the call time. -/
structure UpdateRatesResult where
  success : Bool
  results : List (String × Nat)
  summary : UpdateSummary
  timestamp : Timestamp
deriving DecidableEq, Repr

/-- `ParserUseCases.update_rates` (usecases.py 26-50): resolves the optional
source (`[source] if source else None`, so the empty string also means all),
runs the update, and reports `success = sum(results.values()) > 0`. -/
def update_rates (clients : List String)
    (fetch : String → Except FetchFailure (List (String × Rat)))
    (source : Option String) (now : Timestamp) (st : Storage) :
    UpdateRatesResult × Storage :=
  let sources : Option (List String) :=
    match source with
    | some s => if s = "" then none else some [s]
    | none => none
  let res := run_update clients fetch sources now st
  ({ success := decide (0 < (res.1.map Prod.snd).sum)
     results := res.1
     summary := get_update_summary res.2
     timestamp := now }, res.2)

/-! ## Helper lemmas -/

/-- Looking up a key of `l` in the image of a key-preserving map, when the
keys of `l` are distinct. -/
theorem lookup_map_pairs {β : Type} (f : String → Rat → β) :
    ∀ (l : List (String × Rat)), (l.map Prod.fst).Nodup → ∀ p ∈ l,
      (l.map (fun q => (q.1, f q.1 q.2))).lookup p.1 = some (f p.1 p.2) := by
  intro l
  induction l with
  | nil => simp
  | cons q t ih =>
      intro hnd p hp
      rcases List.mem_cons.mp hp with rfl | hp'
      · simp [List.lookup]
      · have hne : p.1 ≠ q.1 := by
          intro hEq
          have hmem : p.1 ∈ t.map Prod.fst := List.mem_map_of_mem Prod.fst hp'
          rw [hEq] at hmem
          exact (List.nodup_cons.mp hnd).1 hmem
        have hbeq : (p.1 == q.1) = false := beq_eq_false_iff_ne.mpr hne
        simp [List.lookup, hbeq, ih (List.nodup_cons.mp hnd).2 p hp']

/-! ## C6: TTL freshness check -/

/-- C6: `check_freshness` reports stale (flag `false`) exactly when the
snapshot has no `last_refresh` or `now - last_refresh` strictly exceeds the
TTL; with TTL = 300 a snapshot refreshed 301 seconds ago is stale, one
refreshed 299 seconds ago is fresh, and an absent `last_refresh` is always
stale. -/
theorem c6_check_freshness_ttl :
    (∀ (st : Storage) (ttl : Int) (now : Timestamp),
        (check_freshness st ttl now).1 = false ↔
          (load_rates st).last_refresh = none ∨
            ∃ t, (load_rates st).last_refresh = some t ∧ now - t > ttl) ∧
    (check_freshness ⟨⟨[], some 0⟩, []⟩ 300 301).1 = false ∧
    (check_freshness ⟨⟨[], some 0⟩, []⟩ 300 299).1 = true ∧
    (∀ (pairs : List (String × PairData)) (hist : List HistoryEntry)
        (ttl : Int) (now : Timestamp),
        (check_freshness ⟨⟨pairs, none⟩, hist⟩ ttl now).1 = false) := by
  refine ⟨fun st ttl now => ?_, by decide, by decide, fun pairs hist ttl now => rfl⟩
  rcases st with ⟨⟨pairs, lr⟩, hist⟩
  cases lr with
  | none => simp [check_freshness, load_rates]
  | some t =>
      simp only [check_freshness, load_rates]
      split_ifs with hgt <;> simp [hgt]

/-! ## C7: fiat client fallback -/

/-- C7: `ExchangeRateApiClient.fetch_rates` never propagates a fetch error:
every transport failure (timeout, connection error, 429, 401, any other
status, unknown exception), every non-"success" provider result and every
empty parsed result set yields the fixed internal fallback table
`MOCK_FIAT_RATES`; only a successful provider response with at least one
tracked-currency rate is returned as fetched. -/
theorem c7_fiat_fallback_total :
    (∀ f : HttpFailure, exchangerate_fetch_rates (.error f) = MOCK_FIAT_RATES) ∧
    (∀ d : ApiResponse, d.result ≠ "success" →
        exchangerate_fetch_rates (.ok d) = MOCK_FIAT_RATES) ∧
    (∀ d : ApiResponse, exchangeRateParsed d = [] →
        exchangerate_fetch_rates (.ok d) = MOCK_FIAT_RATES) ∧
    (∀ d : ApiResponse, d.result = "success" → exchangeRateParsed d ≠ [] →
        exchangerate_fetch_rates (.ok d) = exchangeRateParsed d) := by
  refine ⟨fun f => ?_, fun d h => ?_, fun d h => ?_, fun d h h' => ?_⟩
  · cases f with
    | timeout => rfl
    | connectionError => rfl
    | httpStatus s =>
        simp only [exchangerate_fetch_rates, make_request]
        split_ifs <;> rfl
    | otherExn => rfl
  · simp only [exchangerate_fetch_rates, make_request]
    rw [if_pos h]
  · simp only [exchangerate_fetch_rates, make_request]
    by_cases hr : d.result ≠ "success"
    · rw [if_pos hr]
    · rw [if_neg hr]
      simp [h]
  · simp only [exchangerate_fetch_rates, make_request]
    rw [if_neg (by simp [h])]
    simp [h']

/-- Witness for C7 at concrete inputs. -/
theorem c7_witness :
    (⟨"error", none, []⟩ : ApiResponse).result ≠ "success" ∧
    exchangerate_fetch_rates (.ok ⟨"error", none, []⟩) = MOCK_FIAT_RATES :=
  ⟨by decide, c7_fiat_fallback_total.2.1 ⟨"error", none, []⟩ (by decide)⟩

/-! ## C9: save/load round trip -/

/-- C9: `save_rates` followed immediately by `load_rates` returns, for every
pair written, the same rate and source, every pair stamped with the single
timestamp `now`, which also equals the snapshot's `last_refresh`. -/
theorem c9_save_load_roundtrip (st : Storage) (rates : List (String × Rat))
    (source : String) (now : Timestamp) (_hne : rates ≠ [])
    (hnd : (rates.map Prod.fst).Nodup) :
    (load_rates (save_rates st rates source now)).last_refresh = some now ∧
    ∀ p ∈ rates,
      (load_rates (save_rates st rates source now)).pairs.lookup p.1 =
        some { rate := p.2, updated_at := some now, source := source } := by
  refine ⟨rfl, fun p hp => ?_⟩
  have h := lookup_map_pairs
    (fun k r => ({ rate := r, updated_at := some now, source := source } : PairData))
    rates hnd p hp
  simpa [save_rates, load_rates] using h

/-- Witness for C9: a one-pair snapshot round-trips. -/
theorem c9_witness :
    ([("EUR_USD", (2 : Rat))] ≠ []) ∧
    (load_rates (save_rates ⟨⟨[], none⟩, []⟩ [("EUR_USD", 2)] "Multiple Sources" 5)).last_refresh
      = some 5 ∧
    (load_rates (save_rates ⟨⟨[], none⟩, []⟩ [("EUR_USD", 2)] "Multiple Sources" 5)).pairs.lookup "EUR_USD"
      = some { rate := 2, updated_at := some 5, source := "Multiple Sources" } := by
  have h := c9_save_load_roundtrip ⟨⟨[], none⟩, []⟩ [("EUR_USD", 2)] "Multiple Sources" 5
    (by decide) (by simp)
  exact ⟨by decide, h.1, h.2 ("EUR_USD", 2) (by simp)⟩

/-! ## C3: bounded FIFO history -/

/-- A sequence of `save_to_history` calls (each one cycle's rates, source
label and call time) applied in order. -/
def applyHistoryCalls (st : Storage)
    (calls : List (List (String × Rat) × String × Timestamp)) : Storage :=
  calls.foldl (fun s c => save_to_history s c.1 c.2.1 c.2.2) st

/-- Effect of one `save_to_history` call on a history within the cap: the new
history is the old one plus the new entries, with exactly the oldest entries
dropped once the total exceeds 1000 (`Nat` subtraction is 0 within the cap).
This covers both the `entries = []` early return and both truncation arms. -/
theorem save_to_history_drop_eq (st : Storage) (rates : List (String × Rat))
    (source : String) (now : Timestamp) (h : st.history.length ≤ 1000) :
    (save_to_history st rates source now).history =
      (st.history ++ historyEntries rates source now).drop
        (st.history.length + (historyEntries rates source now).length - 1000) := by
  unfold save_to_history
  by_cases he : historyEntries rates source now = []
  · rw [if_pos he]
    have h0 : st.history.length + (historyEntries rates source now).length - 1000 = 0 := by
      rw [he]
      simpa using by omega
    rw [h0, he]
    simp
  · rw [if_neg he]
    simp only
    split_ifs with hlen
    · rw [List.length_append]
    · have h0 : st.history.length + (historyEntries rates source now).length - 1000 = 0 := by
        rw [List.length_append] at hlen
        omega
      rw [h0]
      simp

/-- One `save_to_history` call preserves the 1000-entry cap. -/
theorem save_to_history_len_le (st : Storage) (rates : List (String × Rat))
    (source : String) (now : Timestamp) (h : st.history.length ≤ 1000) :
    (save_to_history st rates source now).history.length ≤ 1000 := by
  rw [save_to_history_drop_eq st rates source now h, List.length_drop, List.length_append]
  omega

/-- C3: starting from any history of length at most 1000, after any sequence
of `save_to_history` calls the stored history never exceeds 1000 entries, and
each call keeps exactly the most recent entries: the new history is the old
history followed by the new entries with precisely the excess oldest entries
dropped from the front (FIFO), preserving the order of the rest. -/
theorem c3_history_fifo_cap (st : Storage)
    (calls : List (List (String × Rat) × String × Timestamp))
    (h : st.history.length ≤ 1000) :
    (applyHistoryCalls st calls).history.length ≤ 1000 ∧
    (∀ (st' : Storage) (rates : List (String × Rat)) (source : String)
        (now : Timestamp), st'.history.length ≤ 1000 →
        (save_to_history st' rates source now).history =
          (st'.history ++ historyEntries rates source now).drop
            (st'.history.length + (historyEntries rates source now).length - 1000)) := by
  refine ⟨?_, fun st' rates source now h' => save_to_history_drop_eq st' rates source now h'⟩
  induction calls generalizing st with
  | nil => exact h
  | cons c t ih =>
      simp only [applyHistoryCalls, List.foldl_cons] at *
      exact ih _ (save_to_history_len_le _ _ _ _ h)

/-- Witness for C3 at a concrete one-call sequence. -/
theorem c3_witness :
    (⟨⟨[], none⟩, []⟩ : Storage).history.length ≤ 1000 ∧
    (applyHistoryCalls ⟨⟨[], none⟩, []⟩ [([("BTC_USD", 2)], "Coingecko", 0)]).history.length ≤ 1000 :=
  ⟨by decide, (c3_history_fifo_cap ⟨⟨[], none⟩, []⟩ [([("BTC_USD", 2)], "Coingecko", 0)] (by decide)).1⟩

/-! ## C2: all-zero cycle leaves the snapshot untouched -/

/-- `setKey` with value 0 preserves "all recorded counts are 0". -/
theorem setKey_all_zero (d : List (String × Nat)) (k : String)
    (h : ∀ kv ∈ d, kv.2 = 0) : ∀ kv ∈ setKey d k 0, kv.2 = 0 := by
  intro kv hkv
  unfold setKey at hkv
  split_ifs at hkv with hc
  · rcases List.mem_map.mp hkv with ⟨p, hp, hpe⟩
    by_cases hpk : p.1 == k
    · rw [if_pos hpk] at hpe
      rw [← hpe]
    · rw [if_neg hpk] at hpe
      rw [← hpe]
      exact h p hp
  · rcases List.mem_append.mp hkv with hold | hnew
    · exact h kv hold
    · rw [List.mem_singleton.mp hnew]

/-- The source loop of `run_update` on sources that all fail or return empty
dicts: the accumulator stays empty, the storage is untouched, and every
recorded count is 0. -/
theorem runUpdateLoop_all_zero (clients : List String)
    (fetch : String → Except FetchFailure (List (String × Rat))) (now : Timestamp) :
    ∀ (sources : List String) (results : List (String × Nat)) (st : Storage),
      (∀ s ∈ sources, s ∈ clients → fetch s = .ok [] ∨ ∃ e, fetch s = .error e) →
      (∀ kv ∈ results, kv.2 = 0) →
      (sources.foldl (runUpdateStep clients fetch now) (results, [], st)).2 = ([], st) ∧
      ∀ kv ∈ (sources.foldl (runUpdateStep clients fetch now) (results, [], st)).1, kv.2 = 0 := by
  intro sources
  induction sources with
  | nil => exact fun results st _ hres => ⟨rfl, hres⟩
  | cons s t ih =>
      intro results st hsrc hres
      rw [List.foldl_cons]
      by_cases hs : s ∈ clients
      · rcases hsrc s (List.mem_cons_self s t) hs with hok | ⟨e, he⟩
        · have hstep : runUpdateStep clients fetch now (results, [], st) s =
              (setKey results s 0, [], st) := by
            simp [runUpdateStep, hs, hok, dictUpdate, save_to_history, historyEntries]
          rw [hstep]
          exact ih (setKey results s 0) st
            (fun x hx hxc => hsrc x (List.mem_cons_of_mem s hx) hxc)
            (setKey_all_zero results s hres)
        · have hstep : runUpdateStep clients fetch now (results, [], st) s =
              (setKey results s 0, [], st) := by
            simp [runUpdateStep, hs, he]
          rw [hstep]
          exact ih (setKey results s 0) st
            (fun x hx hxc => hsrc x (List.mem_cons_of_mem s hx) hxc)
            (setKey_all_zero results s hres)
      · have hstep : runUpdateStep clients fetch now (results, [], st) s =
            (results, [], st) := by
          simp [runUpdateStep, hs]
        rw [hstep]
        exact ih results st (fun x hx hxc => hsrc x (List.mem_cons_of_mem s hx) hxc) hres

/-- `run_update` on an all-zero cycle: storage unchanged, all counts 0. -/
theorem run_update_all_zero (clients : List String)
    (fetch : String → Except FetchFailure (List (String × Rat)))
    (sourcesOpt : Option (List String)) (now : Timestamp) (st : Storage)
    (h : ∀ s ∈ sourcesOpt.getD clients, s ∈ clients →
        fetch s = .ok [] ∨ ∃ e, fetch s = .error e) :
    (run_update clients fetch sourcesOpt now st).2 = st ∧
    ∀ kv ∈ (run_update clients fetch sourcesOpt now st).1, kv.2 = 0 := by
  obtain ⟨h2, hz⟩ :=
    runUpdateLoop_all_zero clients fetch now (sourcesOpt.getD clients) [] st h (by simp)
  unfold run_update
  have h21 : ((sourcesOpt.getD clients).foldl (runUpdateStep clients fetch now)
      ([], [], st)).2.1 = [] := by rw [h2]
  have h22 : ((sourcesOpt.getD clients).foldl (runUpdateStep clients fetch now)
      ([], [], st)).2.2 = st := by rw [h2]
  simp only [h21, h22, if_pos rfl]
  exact ⟨rfl, hz⟩

/-- C2: in a cycle where every requested known source fails or returns an
empty dict, `run_update` (inside `update_rates`) leaves the whole stored
snapshot unchanged — no write happens — and returns normally, and
`update_rates` reports `success = false`. -/
theorem c2_empty_cycle_no_write (clients : List String)
    (fetch : String → Except FetchFailure (List (String × Rat)))
    (sourceOpt : Option String) (now : Timestamp) (st : Storage)
    (h : ∀ s ∈ (match sourceOpt with
                | some s₀ => if s₀ = "" then clients else [s₀]
                | none => clients),
        s ∈ clients → fetch s = .ok [] ∨ ∃ e, fetch s = .error e) :
    (update_rates clients fetch sourceOpt now st).2 = st ∧
    load_rates (update_rates clients fetch sourceOpt now st).2 = load_rates st ∧
    (update_rates clients fetch sourceOpt now st).1.success = false := by
  have aux : ∀ (opt : Option (List String)),
      (∀ s ∈ opt.getD clients, s ∈ clients →
        fetch s = .ok [] ∨ ∃ e, fetch s = .error e) →
      (run_update clients fetch opt now st).2 = st ∧
      decide (0 < ((run_update clients fetch opt now st).1.map Prod.snd).sum) = false := by
    intro opt hopt
    obtain ⟨hst, hz⟩ := run_update_all_zero clients fetch opt now st hopt
    refine ⟨hst, ?_⟩
    simp only [decide_eq_false_iff_not, not_lt, Nat.le_zero]
    apply List.sum_eq_zero
    intro x hx
    rcases List.mem_map.mp hx with ⟨kv, hkv, hkve⟩
    rw [← hkve]
    exact hz kv hkv
  rcases sourceOpt with _ | s
  · obtain ⟨hst, hsum⟩ := aux none (fun x hx hxc => h x hx hxc)
    simp only [update_rates]
    exact ⟨hst, by rw [hst], hsum⟩
  · by_cases hs : s = ""
    · subst hs
      simp only [reduceIte] at h
      obtain ⟨hst, hsum⟩ := aux none (fun x hx hxc => h x hx hxc)
      simp only [update_rates, reduceIte]
      exact ⟨hst, by rw [hst], hsum⟩
    · simp only [if_neg hs] at h
      obtain ⟨hst, hsum⟩ := aux (some [s]) (fun x hx hxc => h x hx hxc)
      simp only [update_rates, if_neg hs]
      exact ⟨hst, by rw [hst], hsum⟩

/-- Witness for C2: both registered sources fail; a non-trivial snapshot is
untouched and the cycle reports failure. -/
theorem c2_witness :
    (update_rates defaultClients (fun _ => .error (.api .timeout)) none 10
        ⟨⟨[("BTC_USD", ⟨2, some 0, "Coingecko"⟩)], some 0⟩, []⟩).2 =
      ⟨⟨[("BTC_USD", ⟨2, some 0, "Coingecko"⟩)], some 0⟩, []⟩ ∧
    (update_rates defaultClients (fun _ => .error (.api .timeout)) none 10
        ⟨⟨[("BTC_USD", ⟨2, some 0, "Coingecko"⟩)], some 0⟩, []⟩).1.success = false := by
  have h := c2_empty_cycle_no_write defaultClients (fun _ => .error (.api .timeout)) none 10
    ⟨⟨[("BTC_USD", ⟨2, some 0, "Coingecko"⟩)], some 0⟩, []⟩
    (fun s _ _ => Or.inr ⟨.api .timeout, rfl⟩)
  exact ⟨h.1, h.2.2⟩

/-! ## C1: partial failure keeps the succeeding source's rates -/

/-- Folding `setKey` over fresh, pairwise distinct keys appends them. -/
theorem foldl_setKey_disjoint {α : Type} :
    ∀ (l acc : List (String × α)),
      (l.map Prod.fst).Nodup →
      (∀ p ∈ l, acc.any (fun q => q.1 == p.1) = false) →
      l.foldl (fun d p => setKey d p.1 p.2) acc = acc ++ l := by
  intro l
  induction l with
  | nil => intro acc _ _; simp
  | cons p t ih =>
      intro acc hnd hdisj
      rw [List.foldl_cons]
      have hsk : setKey acc p.1 p.2 = acc ++ [p] := by
        have hfalse := hdisj p (List.mem_cons_self p t)
        unfold setKey
        rw [if_neg (by simp [hfalse])]
      rw [hsk, ih (acc ++ [p]) (List.nodup_cons.mp hnd).2 ?_]
      · simp
      · intro q hq
        rw [List.any_append]
        have h1 := hdisj q (List.mem_cons_of_mem p hq)
        have h2 : (p.1 == q.1) = false := by
          apply beq_eq_false_iff_ne.mpr
          intro hEq
          have hmem : q.1 ∈ t.map Prod.fst := List.mem_map_of_mem Prod.fst hq
          rw [← hEq] at hmem
          exact (List.nodup_cons.mp hnd).1 hmem
        simp [h1, h2]

/-- Merging a fresh dict into the empty accumulator gives it back. -/
theorem dictUpdate_nil_left {α : Type} (l : List (String × α))
    (hnd : (l.map Prod.fst).Nodup) : dictUpdate [] l = l := by
  simpa [dictUpdate] using foldl_setKey_disjoint l [] hnd (by simp)

/-- C1: in a two-source cycle where one source's fetch raises and the other
succeeds with a non-empty dict, `run_update` (which absorbs the failure and
returns normally, being a total function) persists a snapshot whose pairs are
exactly the succeeding source's rate pairs, and the returned per-source map
records 0 for the failing source and the succeeding source's rate count for
the succeeding one — in both request orders. -/
theorem c1_partial_failure (clients : List String)
    (fetch : String → Except FetchFailure (List (String × Rat)))
    (now : Timestamp) (st : Storage) (a b : String) (e : FetchFailure)
    (rs : List (String × Rat)) (hab : a ≠ b) (ha : a ∈ clients) (hb : b ∈ clients)
    (hfa : fetch a = .error e) (hfb : fetch b = .ok rs) (hne : rs ≠ [])
    (hnd : (rs.map Prod.fst).Nodup) :
    ((run_update clients fetch (some [a, b]) now st).1.lookup a = some 0 ∧
     (run_update clients fetch (some [a, b]) now st).1.lookup b = some rs.length ∧
     (load_rates (run_update clients fetch (some [a, b]) now st).2).pairs.map
        (fun p => (p.1, p.2.rate)) = rs) ∧
    ((run_update clients fetch (some [b, a]) now st).1.lookup a = some 0 ∧
     (run_update clients fetch (some [b, a]) now st).1.lookup b = some rs.length ∧
     (load_rates (run_update clients fetch (some [b, a]) now st).2).pairs.map
        (fun p => (p.1, p.2.rate)) = rs) := by
  have hba : (a == b) = false := beq_eq_false_iff_ne.mpr hab
  have hba' : (b == a) = false := beq_eq_false_iff_ne.mpr (Ne.symm hab)
  have s1 : runUpdateStep clients fetch now ([], [], st) a = ([(a, 0)], [], st) := by
    simp [runUpdateStep, ha, hfa, setKey]
  have s2 : runUpdateStep clients fetch now ([(a, 0)], [], st) b =
      ([(a, 0), (b, rs.length)], rs, save_to_history st rs (pyCapitalize b) now) := by
    simp [runUpdateStep, hb, hfb, setKey, hba, dictUpdate_nil_left rs hnd]
  have t1 : runUpdateStep clients fetch now ([], [], st) b =
      ([(b, rs.length)], rs, save_to_history st rs (pyCapitalize b) now) := by
    simp [runUpdateStep, hb, hfb, setKey, dictUpdate_nil_left rs hnd]
  have t2 : runUpdateStep clients fetch now
      ([(b, rs.length)], rs, save_to_history st rs (pyCapitalize b) now) a =
      ([(b, rs.length), (a, 0)], rs, save_to_history st rs (pyCapitalize b) now) := by
    simp [runUpdateStep, ha, hfa, setKey, hba']
  have hrun1 : run_update clients fetch (some [a, b]) now st =
      ([(a, 0), (b, rs.length)],
        save_rates (save_to_history st rs (pyCapitalize b) now) rs "Multiple Sources" now) := by
    simp only [run_update, Option.getD_some]
    rw [List.foldl_cons, List.foldl_cons, List.foldl_nil, s1, s2]
    simp only
    rw [if_neg hne]
  have hrun2 : run_update clients fetch (some [b, a]) now st =
      ([(b, rs.length), (a, 0)],
        save_rates (save_to_history st rs (pyCapitalize b) now) rs "Multiple Sources" now) := by
    simp only [run_update, Option.getD_some]
    rw [List.foldl_cons, List.foldl_cons, List.foldl_nil, t1, t2]
    simp only
    rw [if_neg hne]
  have hcomp : ((fun p : String × PairData => (p.1, p.2.rate)) ∘
      (fun p : String × Rat =>
        (p.1, ({ rate := p.2, updated_at := some now,
                 source := "Multiple Sources" } : PairData)))) = id := by
    funext p; rfl
  refine ⟨⟨?_, ?_, ?_⟩, ⟨?_, ?_, ?_⟩⟩
  · rw [hrun1]; simp [List.lookup]
  · rw [hrun1]; simp [List.lookup, hba']
  · rw [hrun1]; simp only [save_rates, load_rates, List.map_map, hcomp, List.map_id]
  · rw [hrun2]; simp [List.lookup, hba]
  · rw [hrun2]; simp [List.lookup]
  · rw [hrun2]; simp only [save_rates, load_rates, List.map_map, hcomp, List.map_id]

/-- Concrete per-source fetch behaviour for the C1 witness: the crypto source
raises, the fiat source succeeds with one pair. -/
def c1WitnessFetch : String → Except FetchFailure (List (String × Rat)) :=
  fun s => if s = "coingecko" then .error (.api .timeout) else .ok [("EUR_USD", 2)]

/-- Witness for C1 at concrete inputs. -/
theorem c1_witness :
    "coingecko" ≠ "exchangerate" ∧
    (run_update defaultClients c1WitnessFetch (some ["coingecko", "exchangerate"]) 7
        ⟨⟨[], none⟩, []⟩).1.lookup "coingecko" = some 0 ∧
    (run_update defaultClients c1WitnessFetch (some ["coingecko", "exchangerate"]) 7
        ⟨⟨[], none⟩, []⟩).1.lookup "exchangerate" = some 1 := by
  have h := c1_partial_failure defaultClients c1WitnessFetch 7 ⟨⟨[], none⟩, []⟩
    "coingecko" "exchangerate" (.api .timeout) [("EUR_USD", 2)]
    (by decide) (by simp [defaultClients]) (by simp [defaultClients])
    rfl rfl (by decide) (by simp)
  exact ⟨by decide, h.1.1, h.1.2.1⟩

/-! ## C4, C5, C10: get_rate lookups, freshness flag, division safety -/

/-- `get_currency` fails only with `CurrencyNotFoundError`. -/
theorem get_currency_error_shape (c₀ : String) (e : UseCaseError)
    (h : get_currency c₀ = .error e) : ∃ c, e = .currencyNotFound c := by
  simp only [get_currency] at h
  split_ifs at h
  exact ⟨pyUpper (pyStrip c₀), (Except.error.inj h).symm⟩

/-- A successful `List.lookup` comes from a member of the list. -/
theorem lookup_mem {α : Type} :
    ∀ (l : List (String × α)) (k : String) (v : α),
      l.lookup k = some v → (k, v) ∈ l := by
  intro l
  induction l with
  | nil => intro k v h; cases h
  | cons p t ih =>
      intro k v h
      rcases p with ⟨k', v'⟩
      simp only [List.lookup] at h
      cases hbeq : (k == k') with
      | true =>
          rw [hbeq] at h
          simp only [List.mem_cons]
          exact Or.inl (Prod.ext (eq_of_beq hbeq) (Option.some.inj h).symm)
      | false =>
          rw [hbeq] at h
          exact List.mem_cons_of_mem _ (ih k v h)

/-- C4 (amended): `get_rate` validates both codes against the currency
registry before any cache lookup (usecases.py 138-139), so an unregistered
code — from or to — makes the call fail with that `CurrencyNotFoundError`
even when the pair is cached (first two conjuncts).  For codes that pass the
registry check, with the direct pair absent and the reverse pair cached with
a non-zero rate `r`, `get_rate` succeeds with rate `1/r` and the cached
pair's timestamp and source; the returned dict carries exactly the keys
`pair`, `rate`, `updated_at`, `source`, `inverse_rate`, `is_fresh` — the
`is_inverse` marking exists only on the intermediate record and is NOT part
of the returned result.  A cached reverse rate of exactly 0 raises
`ZeroDivisionError` instead of succeeding, and when neither direction is
cached `get_rate` fails with the not-found `ApiRequestError` advising an
update. -/
theorem c4_inverse_lookup (st : Storage) (F T : String) :
    (∀ e, get_currency (pyUpper F) = .error e → get_rate st F T = .error e) ∧
    (∀ e, get_currency (pyUpper F) = .ok () → get_currency (pyUpper T) = .error e →
        get_rate st F T = .error e) ∧
    (∀ rd : PairData,
        get_currency (pyUpper F) = .ok () → get_currency (pyUpper T) = .ok () →
        storage_get_rate st (pyUpper F ++ "_" ++ pyUpper T) = none →
        storage_get_rate st (pyUpper T ++ "_" ++ pyUpper F) = some rd → rd.rate ≠ 0 →
        get_rate st F T =
          .ok [("pair", .str (pyUpper F ++ "_" ++ pyUpper T)),
               ("rate", .num (1 / rd.rate)),
               ("updated_at", .time rd.updated_at),
               ("source", .str rd.source),
               ("inverse_rate", .num rd.rate),
               ("is_fresh", .bool true)]) ∧
    (∀ rd : PairData,
        get_currency (pyUpper F) = .ok () → get_currency (pyUpper T) = .ok () →
        storage_get_rate st (pyUpper F ++ "_" ++ pyUpper T) = none →
        storage_get_rate st (pyUpper T ++ "_" ++ pyUpper F) = some rd → rd.rate = 0 →
        get_rate st F T = .error .zeroDivisionError) ∧
    (get_currency (pyUpper F) = .ok () → get_currency (pyUpper T) = .ok () →
        storage_get_rate st (pyUpper F ++ "_" ++ pyUpper T) = none →
        storage_get_rate st (pyUpper T ++ "_" ++ pyUpper F) = none →
        get_rate st F T = .error (.rateNotFound (pyUpper F ++ "_" ++ pyUpper T))) := by
  refine ⟨fun e he => ?_, fun e hF he => ?_,
    fun rd hF hT hdir hrev hnz => ?_, fun rd hF hT hdir hrev hz => ?_,
    fun hF hT hdir hrev => ?_⟩
  · simp only [get_rate, he]
  · simp only [get_rate, hF, he]
  · simp only [get_rate, hF, hT, hdir, hrev]
    rw [if_neg hnz]
    simp [getRateReturn, one_div_ne_zero hnz, one_div_one_div]
    exact fun h => h.symm
  · simp only [get_rate, hF, hT, hdir, hrev]
    rw [if_pos hz]
  · simp only [get_rate, hF, hT, hdir, hrev]

/-- Counterexample to C4 as stated.  First conjunct: with only the reverse
pair `EUR_USD` cached at rate 0, `get_rate("USD","EUR")` raises
`ZeroDivisionError` (`1 / reverse_data["rate"]`, usecases.py 152) instead of
succeeding with `rate = 1/r`.  Second conjunct: with the reverse pair cached
at rate 2, the call succeeds with `rate = 1/2`, but the returned dict
(usecases.py 183-190) carries no `is_inverse` key — the inverse marking set
on the intermediate `rate_data` (line 155) is not part of the returned
result.  Third conjunct: with the reverse pair `GBP_USD` cached at rate 2 —
a pair the service itself writes (GBP is in the tracked fiat list and the
mock fallback table) whose code is NOT in `_CURRENCY_REGISTRY` —
`get_rate("USD","GBP")` raises `CurrencyNotFoundError` from the registry
check (usecases.py 138-139) instead of succeeding with `rate = 1/2`. -/
theorem c4_counterexample :
    get_rate ⟨⟨[("EUR_USD", ⟨0, some 0, "Coingecko"⟩)], some 0⟩, []⟩ "USD" "EUR" =
      .error .zeroDivisionError ∧
    get_rate ⟨⟨[("GBP_USD", ⟨2, some 0, "Exchangerate"⟩)], some 0⟩, []⟩ "USD" "GBP" =
      .error (.currencyNotFound "GBP") ∧
    get_rate ⟨⟨[("EUR_USD", ⟨2, some 0, "Coingecko"⟩)], some 0⟩, []⟩ "USD" "EUR" =
      .ok [("pair", .str "USD_EUR"), ("rate", .num (1 / 2)),
           ("updated_at", .time (some 0)), ("source", .str "Coingecko"),
           ("inverse_rate", .num 2), ("is_fresh", .bool true)] := by
  refine ⟨rfl, rfl, ?_⟩
  · have h2 : (2 : Rat) ≠ 0 := by norm_num
    have h12 : (1 : Rat) / 2 ≠ 0 := by norm_num
    have hcF : get_currency (pyUpper "USD") = .ok () := rfl
    have hcT : get_currency (pyUpper "EUR") = .ok () := rfl
    have hdir : storage_get_rate
        (⟨⟨[("EUR_USD", ⟨2, some 0, "Coingecko"⟩)], some 0⟩, []⟩ : Storage)
        (pyUpper "USD" ++ "_" ++ pyUpper "EUR") = none := rfl
    have hrev : storage_get_rate
        (⟨⟨[("EUR_USD", ⟨2, some 0, "Coingecko"⟩)], some 0⟩, []⟩ : Storage)
        (pyUpper "EUR" ++ "_" ++ pyUpper "USD") = some ⟨2, some 0, "Coingecko"⟩ := rfl
    simp only [get_rate, hcF, hcT, hdir, hrev]
    rw [if_neg h2]
    simp only [getRateReturn]
    rw [if_pos h12]
    have hpair : pyUpper "USD" ++ "_" ++ pyUpper "EUR" = "USD_EUR" := by decide
    rw [hpair]
    norm_num

/-- Witness for the amended C4 at a concrete input: reverse pair cached at
rate 2 yields `rate = 1/2`, the cached timestamp and source, and a result
with no `is_inverse` key. -/
theorem c4_witness :
    get_rate ⟨⟨[("EUR_USD", ⟨2, some 3, "Coingecko"⟩)], some 3⟩, []⟩ "USD" "EUR" =
      .ok [("pair", .str (pyUpper "USD" ++ "_" ++ pyUpper "EUR")),
           ("rate", .num (1 / 2)),
           ("updated_at", .time (some 3)), ("source", .str "Coingecko"),
           ("inverse_rate", .num 2), ("is_fresh", .bool true)] :=
  (c4_inverse_lookup ⟨⟨[("EUR_USD", ⟨2, some 3, "Coingecko"⟩)], some 3⟩, []⟩
      "USD" "EUR").2.2.1 ⟨2, some 3, "Coingecko"⟩ rfl rfl rfl rfl (by norm_num)

/-- C5 (code bug): every successful `get_rate` result reports
`is_fresh = true` no matter how old the cached timestamp is.  The source
intends a 10-minute (600 s) staleness check (usecases.py 164-181, comment on
line 168), but `datetime.now(datetime.timezone.utc)` raises
`AttributeError` (after `from datetime import datetime`, the name `datetime`
is the class, which has no `timezone` attribute), the bare
`except Exception: pass` swallows it, and the initial `is_fresh = True`
survives.  The concrete conjunct evaluates a pair whose `updated_at` lies
601 seconds in the past (timestamp -601 against any non-negative now): the
claim expects `is_fresh = false`, the code returns `is_fresh = true`. -/
theorem c5_is_fresh_constant_bug :
    (∀ (pair : String) (rd : RateData),
        (getRateReturn pair rd).lookup "is_fresh" = some (.bool true)) ∧
    get_rate ⟨⟨[("EUR_USD", ⟨2, some (-601), "Coingecko"⟩)], some (-601)⟩, []⟩
        "EUR" "USD" =
      .ok [("pair", .str "EUR_USD"), ("rate", .num 2),
           ("updated_at", .time (some (-601))), ("source", .str "Coingecko"),
           ("inverse_rate", .num (1 / 2)), ("is_fresh", .bool true)] := by
  constructor
  · intro pair rd
    simp [getRateReturn, List.lookup]
  · have h2 : (2 : Rat) ≠ 0 := by norm_num
    have hcF : get_currency (pyUpper "EUR") = .ok () := rfl
    have hcT : get_currency (pyUpper "USD") = .ok () := rfl
    have hdir : storage_get_rate
        (⟨⟨[("EUR_USD", ⟨2, some (-601), "Coingecko"⟩)], some (-601)⟩, []⟩ : Storage)
        (pyUpper "EUR" ++ "_" ++ pyUpper "USD") = some ⟨2, some (-601), "Coingecko"⟩ := rfl
    simp only [get_rate, hcF, hcT, hdir]
    simp only [getRateReturn]
    rw [if_pos h2]
    have hpair : pyUpper "EUR" ++ "_" ++ pyUpper "USD" = "EUR_USD" := by decide
    rw [hpair]

/-- C10: division safety of `get_rate`.  (1) `get_rate` raises
`ZeroDivisionError` exactly when both codes pass the registry check, the
direct pair is absent and the reverse pair is cached with rate exactly 0 —
the unguarded `1 / reverse_data["rate"]` (usecases.py 152).  (2) A direct
pair cached with rate 0 is no division error: the `inverse_rate` field is
guarded (`if rate_data["rate"] != 0 else 0`, line 188) and comes out 0.
(3) Under the precondition that every cached rate is non-zero, `get_rate`
never raises a division error. -/
theorem c10_zero_division_characterization :
    (∀ (st : Storage) (F T : String),
        get_rate st F T = .error .zeroDivisionError ↔
          get_currency (pyUpper F) = .ok () ∧ get_currency (pyUpper T) = .ok () ∧
          storage_get_rate st (pyUpper F ++ "_" ++ pyUpper T) = none ∧
          ∃ rd, storage_get_rate st (pyUpper T ++ "_" ++ pyUpper F) = some rd ∧
            rd.rate = 0) ∧
    (∀ (st : Storage) (F T : String) (rd : PairData),
        get_currency (pyUpper F) = .ok () → get_currency (pyUpper T) = .ok () →
        storage_get_rate st (pyUpper F ++ "_" ++ pyUpper T) = some rd →
        rd.rate = 0 →
        get_rate st F T =
          .ok (getRateReturn (pyUpper F ++ "_" ++ pyUpper T)
                ⟨rd.rate, rd.updated_at, rd.source, false⟩) ∧
        (getRateReturn (pyUpper F ++ "_" ++ pyUpper T)
            ⟨rd.rate, rd.updated_at, rd.source, false⟩).lookup "inverse_rate" =
          some (.num 0)) ∧
    (∀ (st : Storage) (F T : String),
        (∀ p ∈ (load_rates st).pairs, p.2.rate ≠ 0) →
        get_rate st F T ≠ .error .zeroDivisionError) := by
  have part1 : ∀ (st : Storage) (F T : String),
      get_rate st F T = .error .zeroDivisionError ↔
        get_currency (pyUpper F) = .ok () ∧ get_currency (pyUpper T) = .ok () ∧
        storage_get_rate st (pyUpper F ++ "_" ++ pyUpper T) = none ∧
        ∃ rd, storage_get_rate st (pyUpper T ++ "_" ++ pyUpper F) = some rd ∧
          rd.rate = 0 := by
    intro st F T
    constructor
    · intro h
      cases hF : get_currency (pyUpper F) with
      | error e =>
          simp only [get_rate, hF] at h
          obtain ⟨c, rfl⟩ := get_currency_error_shape _ _ hF
          simp at h
      | ok u =>
          cases u
          cases hT : get_currency (pyUpper T) with
          | error e =>
              simp only [get_rate, hF, hT] at h
              obtain ⟨c, rfl⟩ := get_currency_error_shape _ _ hT
              simp at h
          | ok v =>
              cases v
              cases hdir : storage_get_rate st (pyUpper F ++ "_" ++ pyUpper T) with
              | some d => simp only [get_rate, hF, hT, hdir] at h; cases h
              | none =>
                  cases hrev : storage_get_rate st (pyUpper T ++ "_" ++ pyUpper F) with
                  | none =>
                      simp only [get_rate, hF, hT, hdir, hrev] at h
                      simp at h
                  | some rd =>
                      by_cases hz : rd.rate = 0
                      · exact ⟨rfl, rfl, rfl, rd, rfl, hz⟩
                      · simp only [get_rate, hF, hT, hdir, hrev] at h
                        rw [if_neg hz] at h
                        cases h
    · rintro ⟨hF, hT, hdir, rd, hrev, hz⟩
      simp only [get_rate, hF, hT, hdir, hrev]
      rw [if_pos hz]
  refine ⟨part1, fun st F T rd hF hT hdir hz => ?_, fun st F T hall h => ?_⟩
  · constructor
    · simp only [get_rate, hF, hT, hdir]
    · simp [getRateReturn, List.lookup, hz]
  · obtain ⟨_, _, _, rd, hrev, hz⟩ := (part1 st F T).mp h
    have hmem : (pyUpper T ++ "_" ++ pyUpper F, rd) ∈ (load_rates st).pairs :=
      lookup_mem _ _ _ hrev
    exact hall _ hmem hz

/-- Witness for C10: a direct pair cached with rate 0 succeeds with
`inverse_rate = 0` (no division error). -/
theorem c10_witness :
    get_rate ⟨⟨[("EUR_USD", ⟨0, some 0, "Coingecko"⟩)], some 0⟩, []⟩ "EUR" "USD" =
      .ok (getRateReturn (pyUpper "EUR" ++ "_" ++ pyUpper "USD")
            ⟨0, some 0, "Coingecko", false⟩) ∧
    (getRateReturn (pyUpper "EUR" ++ "_" ++ pyUpper "USD")
        ⟨0, some 0, "Coingecko", false⟩).lookup "inverse_rate" = some (.num 0) :=
  c10_zero_division_characterization.2.1
    ⟨⟨[("EUR_USD", ⟨0, some 0, "Coingecko"⟩)], some 0⟩, []⟩ "EUR" "USD"
    ⟨0, some 0, "Coingecko"⟩ rfl rfl rfl rfl

/-! ## C8: show_rates filtering, sorting, truncation, formatting -/

/-- Rounding an integer changes nothing. -/
theorem roundHalfEven_intCast (n : Int) : roundHalfEven (n : Rat) = n := by
  simp only [roundHalfEven, Int.floor_intCast, sub_self]
  rw [if_pos (by norm_num : (0 : Rat) < 1 / 2)]

/-- `format4 2 = "2.0000"`. -/
theorem format4_two : format4 2 = "2.0000" := by
  have h : roundHalfEven ((2 : Rat) * 10000) = (20000 : Int) := by
    have he : ((2 : Rat) * 10000) = ((20000 : Int) : Rat) := by norm_num
    rw [he, roundHalfEven_intCast]
  simp only [format4, h]
  rw [if_neg (by norm_num : ¬(2 : Rat) < 0)]
  decide

/-- `format4 50 = "50.0000"`. -/
theorem format4_fifty : format4 50 = "50.0000" := by
  have h : roundHalfEven ((50 : Rat) * 10000) = (500000 : Int) := by
    have he : ((50 : Rat) * 10000) = ((500000 : Int) : Rat) := by norm_num
    rw [he, roundHalfEven_intCast]
  simp only [format4, h]
  rw [if_neg (by norm_num : ¬(50 : Rat) < 0)]
  decide

/-- `format4 100 = "100.0000"`. -/
theorem format4_hundred : format4 100 = "100.0000" := by
  have h : roundHalfEven ((100 : Rat) * 10000) = (1000000 : Int) := by
    have he : ((100 : Rat) * 10000) = ((1000000 : Int) : Rat) := by norm_num
    rw [he, roundHalfEven_intCast]
  simp only [format4, h]
  rw [if_neg (by norm_num : ¬(100 : Rat) < 0)]
  decide

/-- `format4` always ends in a dot followed by exactly four digit
characters. -/
theorem format4_four_decimals (q : Rat) :
    ∃ s, format4 q =
        s ++ "." ++ pad4 ((roundHalfEven (q * 10000)).natAbs % 10000) ∧
      (pad4 ((roundHalfEven (q * 10000)).natAbs % 10000)).length = 4 := by
  refine ⟨(if q < 0 then "-" else "") ++
    ⟨(group3 (Nat.repr ((roundHalfEven (q * 10000)).natAbs / 10000)).data.reverse).reverse⟩,
    rfl, rfl⟩

/-- The per-pair predicate of the `show_rates` currency filter: the key
splits into two parts and one of them equals the filter currency. -/
def pairMatches (cur k : String) : Bool :=
  match splitUnderscore k with
  | [f, t] => f == cur || t == cur
  | _ => false

/-- When `filterByCurrency` succeeds it computes exactly the `pairMatches`
filter of its input, in order. -/
theorem filterByCurrency_ok_eq (cur : String) :
    ∀ (l fl : List (String × PairData)),
      filterByCurrency cur l = .ok fl →
      fl = l.filter (fun p => pairMatches cur p.1) := by
  intro l
  induction l with
  | nil =>
      intro fl h
      simp only [filterByCurrency] at h
      rw [← Except.ok.inj h]
      rfl
  | cons p t ih =>
      intro fl h
      rcases p with ⟨k, d⟩
      simp only [filterByCurrency] at h
      split at h
      next f t' heq =>
        cases hrec : filterByCurrency cur t with
        | error e =>
            rw [hrec] at h
            cases h
        | ok fr =>
            rw [hrec] at h
            simp only [Except.map] at h
            have hfl := Except.ok.inj h
            have hfr := ih fr hrec
            rw [← hfl, hfr]
            by_cases hm : f = cur ∨ t' = cur
            · rw [if_pos hm]
              have hpm : pairMatches cur k = true := by
                simp only [pairMatches, heq]
                simpa using hm
              rw [List.filter_cons, hpm]
              rfl
            · rw [if_neg hm]
              have hpm : pairMatches cur k = false := by
                simp only [pairMatches, heq]
                simpa using hm
              rw [List.filter_cons, hpm]
              rfl
      next heq =>
        exact absurd h (by simp)

/-- Descending-rate order on the formatted output entries. -/
def fmtRateDesc (x y : String × FormattedPair) : Prop := y.2.rate ≤ x.2.rate

/-- The truncation stage of `show_rates` (usecases.py 103-105), factored out
for the statements below: truncate only for a present, positive `top`. -/
def truncateTop (tp : Option Int) (l : List (String × PairData)) :
    List (String × PairData) :=
  match tp with
  | some n => if 0 < n then l.take n.toNat else l
  | none => l

/-- C8 (amended): `show_rates` behaviour.  (A) with a NON-empty cache, an
unrecognized filter currency fails with `CurrencyNotFoundError` (with an
empty cache the message dict is returned before any currency check —
see the counterexample).  (B) every successful result is sorted by rate
descending.  (C) a positive `top` truncates to the first `top` entries of
the untruncated result; `top = 0` or negative leaves it untruncated.
(D)/(E) the result keeps exactly the cached pairs, resp. exactly those whose
key has the filter currency as one of its two `_`-components.  (F) every
displayed rate is `format4` of the stored rate, which always ends in a dot
followed by exactly four digits.  (G) the three-pair scenario with rates 5,
100, 50 and `top = 2` returns exactly the pairs rated 100 and 50, in that
order. -/
theorem c8_show_rates_amended (st : Storage) (currency : Option String)
    (top : Option Int) (base : String) :
    (∀ c e, get_latest_rates st ≠ [] → currency = some c → c ≠ "" →
        get_currency (pyUpper c) = .error e →
        show_rates st currency top base = .error (.currencyNotFound (pyUpper c))) ∧
    (∀ r, show_rates st currency top base = .ok r →
        List.Pairwise fmtRateDesc r.rates) ∧
    (∀ r r₀ n, show_rates st currency top base = .ok r → top = some n → 0 < n →
        show_rates st currency none base = .ok r₀ →
        r.rates = r₀.rates.take n.toNat) ∧
    (∀ r, currency = none → show_rates st currency none base = .ok r →
        r.rates.Perm ((get_latest_rates st).map fmtEntry)) ∧
    (∀ r c, currency = some c → c ≠ "" →
        show_rates st currency none base = .ok r →
        r.rates.Perm (((get_latest_rates st).filter
            (fun p => pairMatches (pyUpper c) p.1)).map fmtEntry)) ∧
    (∀ r k fp, show_rates st currency top base = .ok r → (k, fp) ∈ r.rates →
        fp.formatted_rate = format4 fp.rate) ∧
    (∀ q : Rat, ∃ s, format4 q =
        s ++ "." ++ pad4 ((roundHalfEven (q * 10000)).natAbs % 10000) ∧
        (pad4 ((roundHalfEven (q * 10000)).natAbs % 10000)).length = 4) ∧
    show_rates ⟨⟨[("BTC_USD", ⟨5, some 0, "Coingecko"⟩),
                  ("ETH_USD", ⟨100, some 0, "Coingecko"⟩),
                  ("LTC_USD", ⟨50, some 0, "Coingecko"⟩)], some 0⟩, []⟩
        none (some 2) "USD" =
      .ok { rates := [("ETH_USD", ⟨100, some 0, "Coingecko", "100.0000"⟩),
                      ("LTC_USD", ⟨50, some 0, "Coingecko", "50.0000"⟩)],
            total := 2, last_refresh := some 0, base_currency := "USD",
            message := none } := by
  have hshow : ∀ (tp : Option Int) (r : ShowRatesResult),
      show_rates st currency tp base = .ok r →
      (get_latest_rates st = [] ∧ r.rates = []) ∨
      (∃ filtered, get_latest_rates st ≠ [] ∧
        showRatesFiltered currency (get_latest_rates st) = .ok filtered ∧
        r.rates =
          (truncateTop tp (List.insertionSort rateDesc filtered)).map fmtEntry) := by
    intro tp r h
    simp only [show_rates] at h
    by_cases hemp : get_latest_rates st = []
    · rw [if_pos hemp] at h
      left
      refine ⟨hemp, ?_⟩
      rw [← Except.ok.inj h]
    · rw [if_neg hemp] at h
      cases hf : showRatesFiltered currency (get_latest_rates st) with
      | error e => rw [hf] at h; cases h
      | ok filtered =>
          simp only [hf] at h
          right
          refine ⟨filtered, hemp, rfl, ?_⟩
          rw [← Except.ok.inj h]
          rfl
  refine ⟨?_, ?_, ?_, ?_, ?_, ?_, format4_four_decimals, ?_⟩
  · -- (A)
    intro c e hne hc hcne herr
    subst hc
    simp only [show_rates, showRatesFiltered]
    rw [if_neg hne, if_pos hcne]
    simp only [herr]
  · -- (B)
    intro r h
    rcases hshow top r h with ⟨_, hnil⟩ | ⟨filtered, _, _, hrates⟩
    · rw [hnil]
      exact List.Pairwise.nil
    · rw [hrates]
      have hsorted : List.Pairwise rateDesc (List.insertionSort rateDesc filtered) :=
        List.sorted_insertionSort rateDesc filtered
      have htr : List.Pairwise rateDesc
          (truncateTop top (List.insertionSort rateDesc filtered)) := by
        cases top with
        | none => exact hsorted
        | some n =>
            simp only [truncateTop]
            by_cases hn : 0 < n
            · rw [if_pos hn]
              exact List.Pairwise.sublist (List.take_sublist _ _) hsorted
            · rw [if_neg hn]
              exact hsorted
      exact htr.map fmtEntry (fun a b hab => hab)
  · -- (C)
    intro r r₀ n h htop hn h₀
    subst htop
    rcases hshow (some n) r h with ⟨hemp, hnil⟩ | ⟨filtered, hne, hf, hrates⟩
    · rcases hshow none r₀ h₀ with ⟨_, hnil₀⟩ | ⟨filtered₀, hne₀, _, _⟩
      · rw [hnil, hnil₀]
        simp
      · exact absurd hemp hne₀
    · rcases hshow none r₀ h₀ with ⟨hemp₀, _⟩ | ⟨filtered₀, _, hf₀, hrates₀⟩
      · exact absurd hemp₀ hne
      · have hfe : filtered = filtered₀ := Except.ok.inj (hf.symm.trans hf₀)
        subst hfe
        rw [hrates, hrates₀]
        simp only [truncateTop]
        rw [if_pos hn]
        simp [List.map_take]
  · -- (D)
    intro r hcur h
    subst hcur
    rcases hshow none r h with ⟨hemp, hnil⟩ | ⟨filtered, _, hf, hrates⟩
    · rw [hnil, hemp]
      simp
    · have hfe : get_latest_rates st = filtered := Except.ok.inj hf
      rw [hrates, ← hfe]
      simp only [truncateTop]
      exact (List.perm_insertionSort rateDesc _).map fmtEntry
  · -- (E)
    intro r c hcur hcne h
    subst hcur
    rcases hshow none r h with ⟨hemp, hnil⟩ | ⟨filtered, _, hf, hrates⟩
    · rw [hnil, hemp]
      simp
    · simp only [showRatesFiltered] at hf
      rw [if_pos hcne] at hf
      cases hcur' : get_currency (pyUpper c) with
      | error e =>
          rw [hcur'] at hf
          exact absurd hf (by simp)
      | ok u =>
          cases u
          simp only [hcur'] at hf
          have hfeq := filterByCurrency_ok_eq (pyUpper c) (get_latest_rates st) filtered hf
          rw [hrates, hfeq]
          simp only [truncateTop]
          exact (List.perm_insertionSort rateDesc _).map fmtEntry
  · -- (F)
    intro r k fp h hmem
    rcases hshow top r h with ⟨_, hnil⟩ | ⟨filtered, _, _, hrates⟩
    · rw [hnil] at hmem
      cases hmem
    · rw [hrates] at hmem
      rcases List.mem_map.mp hmem with ⟨p, _, hpe⟩
      have hfp : fp = (fmtEntry p).2 := (congrArg Prod.snd hpe).symm
      rw [hfp]
      rfl
  · -- (G)
    have hne : get_latest_rates
        (⟨⟨[("BTC_USD", ⟨5, some 0, "Coingecko"⟩),
            ("ETH_USD", ⟨100, some 0, "Coingecko"⟩),
            ("LTC_USD", ⟨50, some 0, "Coingecko"⟩)], some 0⟩, []⟩ : Storage) ≠ [] := by
      decide
    have hsort : List.insertionSort rateDesc
        [("BTC_USD", (⟨5, some 0, "Coingecko"⟩ : PairData)),
         ("ETH_USD", ⟨100, some 0, "Coingecko"⟩),
         ("LTC_USD", ⟨50, some 0, "Coingecko"⟩)] =
        [("ETH_USD", ⟨100, some 0, "Coingecko"⟩),
         ("LTC_USD", ⟨50, some 0, "Coingecko"⟩),
         ("BTC_USD", ⟨5, some 0, "Coingecko"⟩)] := by decide
    simp only [show_rates, showRatesFiltered, get_latest_rates, load_rates] at hne ⊢
    rw [if_neg hne]
    simp only [hsort]
    rw [if_pos (by norm_num : (0 : Int) < 2)]
    simp only [List.take, List.map, fmtEntry, format4_hundred, format4_fifty]
    rfl

/-- Counterexample to C8 as stated.  First conjunct: with an EMPTY cache and
the unrecognized filter currency "ZZZ", `show_rates` does not fail with a
currency-not-found error — the empty-cache message dict is returned before
the currency check runs (usecases.py 70-77).  Second conjunct: `top = 0` is
given, yet nothing is truncated (`if top and top > 0:` is false at 0), so
the one cached pair is returned rather than the claimed first 0 entries. -/
theorem c8_counterexample :
    show_rates ⟨⟨[], none⟩, []⟩ (some "ZZZ") none "USD" =
      .ok { rates := [], total := 0, last_refresh := none,
            base_currency := "USD", message := some emptyCacheMsg } ∧
    show_rates ⟨⟨[("BTC_USD", ⟨2, some 0, "Coingecko"⟩)], some 0⟩, []⟩
        none (some 0) "USD" =
      .ok { rates := [("BTC_USD", ⟨2, some 0, "Coingecko", "2.0000"⟩)],
            total := 1, last_refresh := some 0, base_currency := "USD",
            message := none } := by
  constructor
  · rfl
  · have hne : get_latest_rates
        (⟨⟨[("BTC_USD", ⟨2, some 0, "Coingecko"⟩)], some 0⟩, []⟩ : Storage) ≠ [] := by
      decide
    have hsort : List.insertionSort rateDesc
        [("BTC_USD", (⟨2, some 0, "Coingecko"⟩ : PairData))] =
        [("BTC_USD", ⟨2, some 0, "Coingecko"⟩)] := by decide
    simp only [show_rates, showRatesFiltered, get_latest_rates, load_rates] at hne ⊢
    rw [if_neg hne]
    simp only [hsort]
    rw [if_neg (by norm_num : ¬(0 : Int) < 0)]
    simp only [List.map, fmtEntry, format4_two]
    rfl

/-- Witness for the amended C8: with a non-empty cache the unrecognized
filter currency "ZZZ" fails with the currency-not-found error. -/
theorem c8_witness :
    show_rates ⟨⟨[("BTC_USD", ⟨2, some 0, "Coingecko"⟩)], some 0⟩, []⟩
        (some "ZZZ") none "USD" =
      .error (.currencyNotFound (pyUpper "ZZZ")) :=
  (c8_show_rates_amended ⟨⟨[("BTC_USD", ⟨2, some 0, "Coingecko"⟩)], some 0⟩, []⟩
      (some "ZZZ") none "USD").1 "ZZZ" (.currencyNotFound "ZZZ")
    (by decide) rfl (by decide) rfl
